import Mathlib

set_option maxHeartbeats 1000000
set_option maxRecDepth 10000

/-!
Verification of the AI response contract layer of the smart-recipe-assistant
repository: the JSON value model, the response cleaning/parsing pipeline of
`src/lib/gemini.ts`, the zod input schemas of `src/lib/validations.ts`, the
two API route handlers, and the `useRecipes` client state hook.

JavaScript numbers are modelled as `Rat` (every claim-relevant value is
exactly representable), strings as Lean `String`/`List Char`, and JSON
values by the `JValue` inductive below.
-/

/-- Model of a parsed JSON value (the result of a successful `JSON.parse`).
Objects are association lists with unique keys (duplicate keys are collapsed
last-wins during parsing, as `JSON.parse` does). -/
inductive JValue where
  | null : JValue
  | bool : Bool → JValue
  | num : Rat → JValue
  | str : String → JValue
  | arr : List JValue → JValue
  | obj : List (String × JValue) → JValue

/-- JavaScript truthiness of a JSON value (`undefined` is represented by a
missing key, handled at lookup sites). -/
def truthy : JValue → Bool
  | .null => false
  | .bool b => b
  | .num q => decide (q ≠ 0)
  | .str s => decide (s ≠ "")
  | .arr _ => true
  | .obj _ => true

/-- Is this JSON value an array (`Array.isArray`)? -/
def isArr : JValue → Bool
  | .arr _ => true
  | _ => false

/-- Property read `v[k]`: `none` models `undefined` (missing key or non-object
receiver).  Reading a property of `null` throws in JavaScript; callers that
can receive `null` handle that case explicitly. -/
def lookupJ (v : JValue) (k : String) : Option JValue :=
  match v with
  | .obj fs => fs.lookup k
  | _ => none

/-- Assignment `fs[k] = v` on an object's field list: overwrites the first
occurrence of `k` in place, otherwise appends.  This is the key semantics of
both `JSON.parse` duplicate keys (last value wins, first position kept) and
object spread `\x7b...r, k: v\x7d`. -/
def updateField : List (String × JValue) → String → JValue → List (String × JValue)
  | [], k, v => [(k, v)]
  | (k', v') :: rest, k, v =>
    if k' = k then (k, v) :: rest else (k', v') :: updateField rest k v

/-! ## A model of `JSON.parse`

A standard recursive-descent JSON parser over `List Char`, with explicit fuel
(initialised well above the input length, so it never runs out on inputs the
grammar accepts).  `jsonParse s = none` models `JSON.parse` throwing a
`SyntaxError`. -/

/-- JSON insignificant whitespace. -/
def isJsonWs (c : Char) : Bool :=
  c = ' ' || c = '\n' || c = '\t' || c = '\r'

/-- Skip insignificant whitespace. -/
def skipWs (s : List Char) : List Char := s.dropWhile isJsonWs

/-- Decimal digit to numeric value. -/
def digitVal (c : Char) : Nat := c.toNat - 48

/-- Accumulate a digit run into a natural number. -/
def digitsToNat (ds : List Char) : Nat :=
  ds.foldl (fun a c => a * 10 + digitVal c) 0

/-- Hexadecimal digit value, if the character is one. -/
def hexVal (c : Char) : Option Nat :=
  if '0' ≤ c ∧ c ≤ '9' then some (c.toNat - 48)
  else if 'a' ≤ c ∧ c ≤ 'f' then some (c.toNat - 87)
  else if 'A' ≤ c ∧ c ≤ 'F' then some (c.toNat - 55)
  else none

/-- Parse the body of a JSON string literal (after the opening quote),
accumulating decoded characters.  Control characters below U+0020 are
rejected, escapes are decoded as in the JSON grammar. -/
def parseJStringAux : Nat → List Char → List Char → Option (String × List Char)
  | 0, _, _ => none
  | fuel + 1, acc, s =>
    match s with
    | [] => none
    | '"' :: rest => some (String.mk acc, rest)
    | '\\' :: e :: rest =>
      match e with
      | '"' => parseJStringAux fuel (acc ++ ['"']) rest
      | '\\' => parseJStringAux fuel (acc ++ ['\\']) rest
      | '/' => parseJStringAux fuel (acc ++ ['/']) rest
      | 'b' => parseJStringAux fuel (acc ++ ['\x08']) rest
      | 'f' => parseJStringAux fuel (acc ++ ['\x0c']) rest
      | 'n' => parseJStringAux fuel (acc ++ ['\n']) rest
      | 'r' => parseJStringAux fuel (acc ++ ['\r']) rest
      | 't' => parseJStringAux fuel (acc ++ ['\t']) rest
      | 'u' =>
        match rest with
        | h1 :: h2 :: h3 :: h4 :: rest2 =>
          match hexVal h1, hexVal h2, hexVal h3, hexVal h4 with
          | some a, some b, some c, some d =>
            parseJStringAux fuel (acc ++ [Char.ofNat (((a * 16 + b) * 16 + c) * 16 + d)]) rest2
          | _, _, _, _ => none
        | _ => none
      | _ => none
    | c :: rest =>
      if c.toNat < 32 then none else parseJStringAux fuel (acc ++ [c]) rest

/-- Parse a JSON number at the head of the input (sign, integer part without
superfluous leading zeros, optional fraction, optional exponent). -/
def parseJNumber (s : List Char) : Option (Rat × List Char) :=
  let (neg, s1) := match s with
    | '-' :: rest => (true, rest)
    | _ => (false, s)
  let intDigits := s1.takeWhile Char.isDigit
  let s2 := s1.drop intDigits.length
  if intDigits = [] then none
  else if intDigits.length > 1 ∧ intDigits.head? = some '0' then none
  else
    let (fracDigits, s3) := match s2 with
      | '.' :: rest =>
        let fd := rest.takeWhile Char.isDigit
        (fd, rest.drop fd.length)
      | _ => ([], s2)
    if s2 ≠ [] ∧ s2.head? = some '.' ∧ fracDigits = [] then none
    else
      let expPart : Option (Int × List Char) := match s3 with
        | 'e' :: rest | 'E' :: rest =>
          let (eneg, r1) := match rest with
            | '-' :: r => (true, r)
            | '+' :: r => (false, r)
            | _ => (false, rest)
          let eds := r1.takeWhile Char.isDigit
          if eds = [] then none
          else some ((if eneg then -(digitsToNat eds : Int) else (digitsToNat eds : Int)),
            r1.drop eds.length)
        | _ => some (0, s3)
      match expPart with
      | none => none
      | some (e, rest) =>
        let mantissa : Int := digitsToNat (intDigits ++ fracDigits)
        let base : Rat := mkRat (if neg then -mantissa else mantissa) (10 ^ fracDigits.length)
        let value : Rat := match e with
          | .ofNat k => base * ((10 : Rat) ^ k)
          | .negSucc k => base / ((10 : Rat) ^ (k + 1))
        some (value, rest)

mutual

/-- Parse one JSON value at the head of the input (after skipping leading
whitespace), returning it and the unconsumed remainder. -/
def parseJValue : Nat → List Char → Option (JValue × List Char)
  | 0, _ => none
  | fuel + 1, s =>
    match skipWs s with
    | 'n' :: 'u' :: 'l' :: 'l' :: rest => some (.null, rest)
    | 't' :: 'r' :: 'u' :: 'e' :: rest => some (.bool true, rest)
    | 'f' :: 'a' :: 'l' :: 's' :: 'e' :: rest => some (.bool false, rest)
    | '"' :: rest =>
      match parseJStringAux fuel [] rest with
      | some (str, rest2) => some (.str str, rest2)
      | none => none
    | '[' :: rest =>
      match skipWs rest with
      | ']' :: rest2 => some (.arr [], rest2)
      | _ => parseJArrayItems fuel rest []
    | '\x7b' :: rest =>
      match skipWs rest with
      | '\x7d' :: rest2 => some (.obj [], rest2)
      | _ => parseJObjItems fuel rest []
    | c :: rest =>
      if c = '-' ∨ c.isDigit then
        match parseJNumber (c :: rest) with
        | some (q, rest2) => some (.num q, rest2)
        | none => none
      else none
    | [] => none

/-- Parse the (non-empty) comma-separated items of a JSON array. -/
def parseJArrayItems : Nat → List Char → List JValue → Option (JValue × List Char)
  | 0, _, _ => none
  | fuel + 1, s, acc =>
    match parseJValue fuel s with
    | none => none
    | some (v, rest) =>
      match skipWs rest with
      | ',' :: rest2 => parseJArrayItems fuel rest2 (acc ++ [v])
      | ']' :: rest2 => some (.arr (acc ++ [v]), rest2)
      | _ => none

/-- Parse the (non-empty) comma-separated members of a JSON object;
duplicate keys overwrite last-wins via `updateField`. -/
def parseJObjItems : Nat → List Char → List (String × JValue) → Option (JValue × List Char)
  | 0, _, _ => none
  | fuel + 1, s, acc =>
    match skipWs s with
    | '"' :: rest =>
      match parseJStringAux fuel [] rest with
      | none => none
      | some (k, rest2) =>
        match skipWs rest2 with
        | ':' :: rest3 =>
          match parseJValue fuel rest3 with
          | none => none
          | some (v, rest4) =>
            match skipWs rest4 with
            | ',' :: rest5 => parseJObjItems fuel rest5 (updateField acc k v)
            | '\x7d' :: rest5 => some (.obj (updateField acc k v), rest5)
            | _ => none
        | _ => none
    | _ => none

end

/-- Model of `JSON.parse`: parse one value, require only whitespace after it.
`none` models a thrown `SyntaxError`. -/
def jsonParse (s : String) : Option JValue :=
  match parseJValue (4 * s.length + 16) s.data with
  | some (v, rest) => if skipWs rest = [] then some v else none
  | none => none

/-! ## Response cleaning (`src/lib/gemini.ts` line 116)

`response.replace(/```json\n?|\n?```/g, '').trim()`: a GLOBAL replace that
removes every occurrence of a fence marker anywhere in the text (the regex
alternation prefers ```json with a greedy optional newline, then an optional
newline followed by ```), then trims surrounding whitespace. -/

/-- One left-to-right pass removing every match of the fence regex
`/```json\n?|\n?```/g`, in the alternation/greediness order of the
JavaScript engine. -/
def stripFences : List Char → List Char
  | '`' :: '`' :: '`' :: 'j' :: 's' :: 'o' :: 'n' :: '\n' :: rest => stripFences rest
  | '`' :: '`' :: '`' :: 'j' :: 's' :: 'o' :: 'n' :: rest => stripFences rest
  | '\n' :: '`' :: '`' :: '`' :: rest => stripFences rest
  | '`' :: '`' :: '`' :: rest => stripFences rest
  | c :: rest => c :: stripFences rest
  | [] => []

/-- Whitespace removed by JavaScript `String.prototype.trim` (the claim-
relevant subset). -/
def isJsWs (c : Char) : Bool :=
  c = ' ' || c = '\n' || c = '\t' || c = '\r' || c = '\x0b' || c = '\x0c'

/-- `String.prototype.trim` on character lists. -/
def jsTrim (l : List Char) : List Char :=
  ((l.dropWhile isJsWs).reverse.dropWhile isJsWs).reverse

/-- The cleaning step of `parseRecipeResponse` (and of the substitutions
route): strip all fence markers, then trim. -/
def cleanChars (l : List Char) : List Char := jsTrim (stripFences l)

/-- `cleanChars` on strings. -/
def cleanString (s : String) : String := String.mk (cleanChars s.data)

/-! ## The recipes response parser (`src/lib/gemini.ts` lines 113-131) -/

/-- The three distinct failures of `parseRecipeResponse`, all of which the
function wraps into a thrown `RecipeParsingError('Failed to parse AI
response', inner)`; the inner error distinguishes them. -/
inductive RecipeParseError where
  | jsonSyntax : RecipeParseError
  | nullAccess : RecipeParseError
  | invalidFormat : RecipeParseError
deriving DecidableEq

/-- The shape gate `if (!parsed.recipes || !Array.isArray(parsed.recipes))`:
on `null` the property read itself throws a `TypeError`; on any other value
whose `recipes` property is not an array (including a missing property) the
code throws `Error('Invalid response format: missing recipes array')`.
An array `recipes` value is always truthy, so the truthiness test never
changes the outcome here. -/
def extractRecipes : JValue → Except RecipeParseError (List JValue)
  | .null => .error .nullAccess
  | .obj fs =>
    match fs.lookup "recipes" with
    | some (.arr rs) => .ok rs
    | _ => .error .invalidFormat
  | _ => .error .invalidFormat

/-- Modelled from the spec: `generateId` lives in `src/lib/utils.ts`, which
is not among the provided sources.  §4.5 of the spec requires only a locally
generated identifier that "must not collide within a single response batch"
(a time-based or random string generator suffices).  We model it as a
counter-indexed string generator, injective in the counter. -/
def generateId (counter : Nat) : String :=
  String.mk (List.replicate (counter + 1) 'r')

/-- Decimal digit character. -/
def digitCh (n : Nat) : Char := Char.ofNat (48 + n % 10)

/-- Fuelled decimal rendering of a natural number (used for JavaScript
number-to-string and string/array spread index keys). -/
def natToStrAux : Nat → Nat → List Char
  | 0, _ => []
  | fuel + 1, n => if n < 10 then [digitCh n] else natToStrAux fuel (n / 10) ++ [digitCh (n % 10)]

/-- Decimal rendering of a natural number. -/
def natToStr (n : Nat) : String := String.mk (natToStrAux (n + 1) n)

/-- Index keys `0, 1, ...` produced by spreading an array or string. -/
def indexedFields : Nat → List JValue → List (String × JValue)
  | _, [] => []
  | i, x :: xs => (natToStr i, x) :: indexedFields (i + 1) xs

/-- Object spread `\x7b...recipe, id: idv\x7d` (gemini.ts lines 123-126):
for an object, overwrite-or-append the `id` key; spreading an array or a
string copies its indexed elements; spreading any other primitive copies
nothing. -/
def spreadWithId (r : JValue) (idv : String) : JValue :=
  match r with
  | .obj fs => .obj (updateField fs "id" (.str idv))
  | .arr xs => .obj (indexedFields 0 xs ++ [("id", .str idv)])
  | .str s => .obj (indexedFields 0 (s.data.map (fun c => JValue.str (String.mk [c]))) ++ [("id", .str idv)])
  | _ => .obj [("id", .str idv)]

/-- `parsed.recipes.map(recipe => (\x7b...recipe, id: generateId()\x7d))`:
each element in order receives the next locally generated identifier. -/
def assignIds (c : Nat) : List JValue → List JValue
  | [] => []
  | r :: rest => spreadWithId r (generateId c) :: assignIds (c + 1) rest

/-- `parseRecipeResponse` (gemini.ts lines 113-131): clean the completion
text, `JSON.parse` it, gate on an array-typed `recipes` property, then map
ids on.  `c` is the state of the local id generator. -/
def parseRecipeResponse (c : Nat) (response : String) : Except RecipeParseError (List JValue) :=
  match jsonParse (cleanString response) with
  | none => .error .jsonSyntax
  | some v => (extractRecipes v).map (assignIds c)

/-! ## The substitutions response parser
(`src/app/api/substitutions/route.ts` lines 102-118) -/

/-- The gate `if (!parsed.substitutions)`: a pure truthiness test — the
`substitutions` property is NOT required to be an array.  On success the
WHOLE parsed object is returned, not the property. -/
def extractSubstitutions : JValue → Except RecipeParseError JValue
  | .null => .error .nullAccess
  | .obj fs =>
    match fs.lookup "substitutions" with
    | some w => if truthy w then .ok (.obj fs) else .error .invalidFormat
    | none => .error .invalidFormat
  | _ => .error .invalidFormat

/-- The parsing part of `generateSubstitutions` (route.ts lines 102-118),
applied to the raw completion text: its `catch` collapses every failure
(syntax, type or format) into the single generic
`Error('Failed to generate ingredient substitutions')`. -/
def generateSubstitutionsModel (response : String) : Except String JValue :=
  match jsonParse (cleanString response) with
  | none => .error "Failed to generate ingredient substitutions"
  | some v =>
    match extractSubstitutions v with
    | .ok w => .ok w
    | .error _ => .error "Failed to generate ingredient substitutions"

/-! ## Input validation (`src/lib/validations.ts`)

`IngredientInputSchema` embedded over `JValue`.  zod semantics: a missing
key is `undefined` (triggers `.default(...)`/`.optional()`); `null` is a
value and fails type checks; array length checks precede element checks;
the produced `ZodError`'s first issue message is returned. -/

/-- The value produced by a successful `IngredientInputSchema.parse`. -/
structure IngredientInput where
  ingredients : List String
  dietaryFilters : List String
  servings : Rat
  maxPrepTime : Option Rat
deriving DecidableEq

/-- The fixed dietary-filter enumeration. -/
def dietaryEnum : List String :=
  ["vegetarian", "vegan", "gluten-free", "dairy-free", "keto", "paleo"]

/-- Element validation for the `ingredients` array:
`z.string().min(1, 'Ingredient cannot be empty').max(50, 'Ingredient name too long')`.
Note: only LENGTH is checked — there is no character allow-list and no
duplicate detection at this level. -/
def ingredientElems : List JValue → Except String (List String)
  | [] => .ok []
  | .str s :: rest =>
    if s.length < 1 then .error "Ingredient cannot be empty"
    else if 50 < s.length then .error "Ingredient name too long"
    else (ingredientElems rest).map (s :: ·)
  | _ :: _ => .error "Expected string"

/-- `z.array(...).min(2, 'Please enter at least 2 ingredients').max(15, 'Maximum 15 ingredients allowed')`:
length issues are recorded before element issues. -/
def parseIngredientsField : JValue → Except String (List String)
  | .arr xs =>
    if xs.length < 2 then .error "Please enter at least 2 ingredients"
    else if 15 < xs.length then .error "Maximum 15 ingredients allowed"
    else ingredientElems xs
  | _ => .error "Expected array"

/-- `z.array(z.enum([...])).default([])`. -/
def parseDietaryField : Option JValue → Except String (List String)
  | none => .ok []
  | some (.arr xs) =>
    let rec go : List JValue → Except String (List String)
      | [] => .ok []
      | .str s :: rest =>
        if s ∈ dietaryEnum then (go rest).map (s :: ·) else .error "Invalid enum value"
      | _ :: _ => .error "Invalid enum value"
    go xs
  | some _ => .error "Expected array"

/-- `z.number().min(1, 'At least 1 serving required').max(12, 'Maximum 12 servings allowed').default(4)`.
No `.int()` refinement is present: any number in [1, 12] passes. -/
def parseServingsField : Option JValue → Except String Rat
  | none => .ok 4
  | some (.num q) =>
    if q < 1 then .error "At least 1 serving required"
    else if 12 < q then .error "Maximum 12 servings allowed"
    else .ok q
  | some _ => .error "Expected number"

/-- `z.number().min(5).max(240).optional()`. -/
def parseMaxPrepTimeField : Option JValue → Except String (Option Rat)
  | none => .ok none
  | some (.num q) =>
    if q < 5 then .error "Number must be greater than or equal to 5"
    else if 240 < q then .error "Number must be less than or equal to 240"
    else .ok (some q)
  | some _ => .error "Expected number"

/-- `IngredientInputSchema.parse` (validations.ts lines 150-160): on failure
the message of the first `ZodError` issue, in shape-declaration order. -/
def parseIngredientInput (v : JValue) : Except String IngredientInput :=
  match v with
  | .obj fs => do
    let ing ← match fs.lookup "ingredients" with
      | none => .error "Required"
      | some w => parseIngredientsField w
    let diet ← parseDietaryField (fs.lookup "dietaryFilters")
    let serv ← parseServingsField (fs.lookup "servings")
    let mpt ← parseMaxPrepTimeField (fs.lookup "maxPrepTime")
    .ok ⟨ing, diet, serv, mpt⟩
  | _ => .error "Expected object"

/-- Modelled from the spec: `isValidIngredient` lives in `src/lib/utils.ts`,
which is not among the provided sources.  §4.1 of the spec: "Each ingredient
string must match an allow-list pattern: letters, spaces, hyphens only;
length ≤ 50; non-empty after trimming."  Used only by the entry-time UI
check in `ingredient-input.tsx`, never by `IngredientInputSchema`. -/
def isValidIngredient (s : String) : Bool :=
  let t := jsTrim s.data
  decide (t ≠ []) && decide (s.length ≤ 50) &&
    s.data.all (fun c => c.isAlpha || c = ' ' || c = '-')

/-! ## `SubstitutionRequestSchema` (`src/app/api/substitutions/route.ts` lines 5-10) -/

/-- The value of a successful `SubstitutionRequestSchema.parse`. -/
structure SubstitutionRequest where
  ingredients : List String
  dietaryFilters : List String
  recipeName : Option String
  recipeType : Option String
deriving DecidableEq

/-- Element check `z.string()` with no refinements. -/
def plainStringElems : List JValue → Except String (List String)
  | [] => .ok []
  | .str s :: rest => (plainStringElems rest).map (s :: ·)
  | _ :: _ => .error "Expected string"

/-- `z.string().optional()`. -/
def optionalStringField : Option JValue → Except String (Option String)
  | none => .ok none
  | some (.str s) => .ok (some s)
  | some _ => .error "Expected string"

/-- `SubstitutionRequestSchema.parse`. -/
def parseSubstitutionRequest (v : JValue) : Except String SubstitutionRequest :=
  match v with
  | .obj fs => do
    let ing ← match fs.lookup "ingredients" with
      | none => .error "Required"
      | some (.arr xs) =>
        if xs.length < 1 then .error "At least one ingredient required"
        else plainStringElems xs
      | some _ => .error "Expected array"
    let diet ← match fs.lookup "dietaryFilters" with
      | none => .ok []
      | some (.arr xs) => plainStringElems xs
      | some _ => .error "Expected array"
    let rn ← optionalStringField (fs.lookup "recipeName")
    let rt ← optionalStringField (fs.lookup "recipeType")
    .ok ⟨ing, diet, rn, rt⟩
  | _ => .error "Expected object"

/-! ## The route handlers -/

/-- Result of a handler run: HTTP status, JSON body, and whether the model
pipeline (prompt building / model invocation) was reached. -/
structure HandlerResult where
  status : Nat
  body : JValue
  promptBuilt : Bool
  invokerCalled : Bool

/-- The 400 body of both routes on a `ZodError`: `details` is
`error.errors`, zod's array of issue objects; we carry the triggering
issue's `message` field (the component the claims quantify over). -/
def validationErrorBody (msg : String) : JValue :=
  .obj [("success", .bool false), ("error", .str "Validation Error"),
    ("message", .str "Invalid input data"),
    ("details", .arr [.obj [("message", .str msg)]])]

/-- `POST /api/recipes` (the route file of the repository, lines 101-158):
validate with `IngredientInputSchema`, call
`recipeGenerator.generateRecipes` (which builds the prompt, invokes the
model, and parses the completion; any failure inside it is rethrown as
`RecipeGenerationError('Failed to generate recipes')`), and translate the
outcome.  `mc` is the model invoker's outcome (raw completion text or a
provider error); `now` is the clock value used for `processingTime`. -/
def postRecipes (now : Rat) (mc : Except Unit String) (body : JValue) : HandlerResult :=
  match parseIngredientInput body with
  | .error msg => ⟨400, validationErrorBody msg, false, false⟩
  | .ok _input =>
    match mc with
    | .error _ =>
      ⟨500, .obj [("success", .bool false), ("error", .str "RecipeGenerationError"),
        ("message", .str "Failed to generate recipes")], true, true⟩
    | .ok text =>
      match parseRecipeResponse 0 text with
      | .error _ =>
        ⟨500, .obj [("success", .bool false), ("error", .str "RecipeGenerationError"),
          ("message", .str "Failed to generate recipes")], true, true⟩
      | .ok recipes =>
        ⟨200, .obj [("success", .bool true), ("recipes", .arr recipes),
          ("totalCount", .num recipes.length), ("processingTime", .num now)], true, true⟩

/-- `POST /api/substitutions` (route.ts lines 12-55).  On success the body's
`substitutions` field is set to the WHOLE object returned by
`generateSubstitutions` (which returns `parsed`, not `parsed.substitutions`). -/
def postSubstitutions (now : Rat) (mc : Except Unit String) (body : JValue) : HandlerResult :=
  match parseSubstitutionRequest body with
  | .error msg => ⟨400, validationErrorBody msg, false, false⟩
  | .ok _input =>
    match mc with
    | .error _ =>
      -- a generateContent failure is caught inside generateSubstitutions'
      -- try/catch, which rethrows its single generic error; the route's
      -- catch then builds the 500 from that error's message
      ⟨500, .obj [("success", .bool false), ("error", .str "Substitution Error"),
        ("message", .str "Failed to generate ingredient substitutions")], true, true⟩
    | .ok text =>
      match generateSubstitutionsModel text with
      | .error msg =>
        ⟨500, .obj [("success", .bool false), ("error", .str "Substitution Error"),
          ("message", .str msg)], true, true⟩
      | .ok parsed =>
        ⟨200, .obj [("success", .bool true), ("substitutions", parsed),
          ("processingTime", .num now)], true, true⟩

/-! ## The prompt builder (`src/lib/gemini.ts` lines 52-111)

The template literal is transcribed piecewise; the pieces are exactly the
maximal literal runs between the `$\x7b...\x7d` interpolation sites, and
`buildRecipePrompt` is their concatenation followed by the source's
`.trim()` call. -/

/-- JavaScript number-to-string for the values reachable here: sign,
integer part, and (for non-integers) the exact finite decimal expansion,
computed by fuelled long division. -/
def fracDigitsAux : Nat → Rat → List Char
  | 0, _ => []
  | fuel + 1, q =>
    if q = 0 then []
    else
      let q10 := q * 10
      digitCh q10.floor.toNat :: fracDigitsAux fuel (q10 - q10.floor)

/-- JavaScript `String(n)` for a `Rat`-modelled number. -/
def jsNumToString (q : Rat) : String :=
  let sign := if q < 0 then "-" else ""
  let a := |q|
  let ip := a.floor.toNat
  let fp := a - a.floor
  sign ++ natToStr ip ++ (if fp = 0 then "" else "." ++ String.mk (fracDigitsAux 30 fp))

/-- `ingredients.join(', ')` / `dietaryFilters.join(', ')`. -/
def joinComma : List String → String
  | [] => ""
  | [x] => x
  | x :: rest => x ++ ", " ++ joinComma rest

/-- The conditional dietary-compliance clause (gemini.ts line 67). -/
def dietaryClause (filters : List String) : String :=
  "- Must comply with: " ++ joinComma filters ++ " dietary requirements"

/-- Template up to the ingredient list. -/
def promptT1 : String :=
  "\nYou are a creative and experienced chef assistant. Generate 3 diverse recipe suggestions based on these available ingredients: "

/-- Template between the ingredient list and the servings count. -/
def promptT2 : String :=
  ".\n\nRequirements:\n- Use primarily the provided ingredients (80%+ utilization)\n- Each recipe should be unique in cooking style and cuisine\n- Include accurate prep time, cook time, and difficulty level\n- Provide detailed step-by-step cooking instructions\n- Include complete nutritional information per serving ("

/-- Template between the servings count and the dietary clause. -/
def promptT3 : String :=
  " servings total)\n- Suggest 2-3 ingredient substitutions for dietary flexibility\n"

/-- Template between the dietary clause and the second servings
interpolation (the literal JSON-shape example, first half). -/
def promptT4 : String :=
  "\n\nReturn response as valid JSON with this exact structure:\n\x7b\n  \"recipes\": [\n    \x7b\n      \"name\": \"Recipe Name\",\n      \"description\": \"Brief appetizing description (max 100 chars)\",\n      \"cuisine\": \"cuisine type\",\n      \"prepTime\": \"15 minutes\",\n      \"cookTime\": \"30 minutes\",\n      \"totalTime\": \"45 minutes\",\n      \"difficulty\": \"Easy|Medium|Hard\",\n      \"servings\": "

/-- Template after the second servings interpolation (the literal JSON-shape
example, second half, and the closing instruction), including the trailing
newline-plus-indentation removed by `.trim()`. -/
def promptT5 : String :=
  ",\n      \"ingredients\": [\n        \x7b\n          \"name\": \"ingredient name\",\n          \"amount\": \"1 cup\",\n          \"notes\": \"optional preparation notes\"\n        \x7d\n      ],\n      \"instructions\": [\n        \"Detailed step 1\",\n        \"Detailed step 2\"\n      ],\n      \"nutrition\": \x7b\n        \"calories\": 350,\n        \"protein\": \"25g\",\n        \"carbs\": \"30g\",\n        \"fat\": \"15g\",\n        \"fiber\": \"5g\",\n        \"sugar\": \"8g\"\n      \x7d,\n      \"substitutions\": \x7b\n        \"ingredient name\": \"substitute option\"\n      \x7d,\n      \"tags\": [\"quick\", \"healthy\"],\n      \"tips\": \"Optional cooking tips or variations\"\n    \x7d\n  ]\n\x7d\n\nEnsure all JSON is properly formatted and parseable. Do not include any text outside the JSON structure.\n    "

/-- Fragment of `promptT1` between its leading `"\nY"` and the fixed
variant-count sentence. -/
def promptT1A : String := "ou are a creative and experienced chef assistant. "

/-- The fixed sentence requesting exactly 3 recipe variants. -/
def promptCount3 : String := "Generate 3 diverse recipe suggestions"

/-- Fragment of `promptT1` after the variant-count sentence. -/
def promptT1B : String := " based on these available ingredients: "

/-- `promptT5` without its final period and the trailing
newline-plus-indentation that `.trim()` removes. -/
def promptT5C : String :=
  ",\n      \"ingredients\": [\n        \x7b\n          \"name\": \"ingredient name\",\n          \"amount\": \"1 cup\",\n          \"notes\": \"optional preparation notes\"\n        \x7d\n      ],\n      \"instructions\": [\n        \"Detailed step 1\",\n        \"Detailed step 2\"\n      ],\n      \"nutrition\": \x7b\n        \"calories\": 350,\n        \"protein\": \"25g\",\n        \"carbs\": \"30g\",\n        \"fat\": \"15g\",\n        \"fiber\": \"5g\",\n        \"sugar\": \"8g\"\n      \x7d,\n      \"substitutions\": \x7b\n        \"ingredient name\": \"substitute option\"\n      \x7d,\n      \"tags\": [\"quick\", \"healthy\"],\n      \"tips\": \"Optional cooking tips or variations\"\n    \x7d\n  ]\n\x7d\n\nEnsure all JSON is properly formatted and parseable. Do not include any text outside the JSON structure"

/-- The full template literal, before `.trim()`. -/
def promptChars (ingredients dietaryFilters : List String) (servings : Rat) : List Char :=
  promptT1.data ++ (joinComma ingredients).data ++ promptT2.data ++
    (jsNumToString servings).data ++ promptT3.data ++
    (if dietaryFilters.length > 0 then (dietaryClause dietaryFilters).data else []) ++
    promptT4.data ++ (jsNumToString servings).data ++ promptT5.data

/-- `buildRecipePrompt` (gemini.ts lines 52-111): the template followed by
`.trim()`. -/
def buildRecipePrompt (ingredients dietaryFilters : List String) (servings : Rat) : String :=
  String.mk (jsTrim (promptChars ingredients dietaryFilters servings))

/-! ## `RecipeSchema` (`src/lib/validations.ts` lines 162-190)

The full structural recipe schema.  NOTE: this schema exists in the source
but is never invoked anywhere in the generation pipeline. -/

/-- Required `z.string()` field. -/
def fieldIsStr (fs : List (String × JValue)) (k : String) : Bool :=
  match fs.lookup k with
  | some (.str _) => true
  | _ => false

/-- Optional `z.string().optional()` field. -/
def fieldIsOptStr (fs : List (String × JValue)) (k : String) : Bool :=
  match fs.lookup k with
  | none => true
  | some (.str _) => true
  | _ => false

/-- One entry of `ingredients`: `\x7b name: string, amount: string, notes?: string \x7d`. -/
def ingredientEntryCheck : JValue → Bool
  | .obj fs => fieldIsStr fs "name" && fieldIsStr fs "amount" && fieldIsOptStr fs "notes"
  | _ => false

/-- Is the value a JSON string? -/
def isStrV : JValue → Bool
  | .str _ => true
  | _ => false

/-- The `nutrition` sub-object: numeric `calories`, five string fields. -/
def nutritionCheck : JValue → Bool
  | .obj fs =>
    (match fs.lookup "calories" with
      | some (.num _) => true
      | _ => false) &&
    fieldIsStr fs "protein" && fieldIsStr fs "carbs" && fieldIsStr fs "fat" &&
    fieldIsStr fs "fiber" && fieldIsStr fs "sugar"
  | _ => false

/-- `RecipeSchema.safeParse(v).success`: full structural validity of one
recipe value. -/
def recipeSchemaCheck : JValue → Bool
  | .obj fs =>
    fieldIsStr fs "id" &&
    (match fs.lookup "name" with
      | some (.str s) => decide (1 ≤ s.length)
      | _ => false) &&
    fieldIsStr fs "description" && fieldIsStr fs "cuisine" &&
    fieldIsStr fs "prepTime" && fieldIsStr fs "cookTime" && fieldIsStr fs "totalTime" &&
    (match fs.lookup "difficulty" with
      | some (.str s) => s = "Easy" || s = "Medium" || s = "Hard"
      | _ => false) &&
    (match fs.lookup "servings" with
      | some (.num q) => decide (0 < q)
      | _ => false) &&
    (match fs.lookup "ingredients" with
      | some (.arr xs) => xs.all ingredientEntryCheck
      | _ => false) &&
    (match fs.lookup "instructions" with
      | some (.arr xs) => xs.all isStrV
      | _ => false) &&
    (match fs.lookup "nutrition" with
      | some v => nutritionCheck v
      | none => false) &&
    (match fs.lookup "substitutions" with
      | some (.obj sf) => sf.all (fun p => isStrV p.2)
      | _ => false) &&
    (match fs.lookup "tags" with
      | some (.arr xs) => xs.all isStrV
      | _ => false) &&
    fieldIsOptStr fs "tips" && fieldIsOptStr fs "image"
  | _ => false

/-! ## The `useRecipes` hook (`src/hooks/use-recipes.ts`) -/

/-- The client state held by `useRecipes`. -/
structure RecipeUIState where
  recipes : List JValue
  selectedRecipe : Option JValue
  loading : Bool
  error : Option String

/-- `useState` initial value (use-recipes.ts lines 15-20). -/
def initialRecipeUIState : RecipeUIState :=
  { recipes := [], selectedRecipe := none, loading := false, error := none }

/-- The atomic `setState` updates the hook can perform.  `startGenerate` and
the two `finishGenerate*` ops are the two ends of the async
`generateRecipes`; arbitrary interleavings with the other ops model
concurrent UI events between them. -/
inductive RecipeUIOp where
  | startGenerate : RecipeUIOp
  | finishGenerateSuccess : List JValue → RecipeUIOp
  | finishGenerateFailure : String → RecipeUIOp
  | clearRecipes : RecipeUIOp
  | selectRecipe : Option JValue → RecipeUIOp
  | clearError : RecipeUIOp

/-- The state transition of each update (use-recipes.ts lines 22-65). -/
def stepRecipeUI (s : RecipeUIState) : RecipeUIOp → RecipeUIState
  | .startGenerate => { s with loading := true, error := none }
  | .finishGenerateSuccess rs => { s with recipes := rs, loading := false }
  | .finishGenerateFailure m => { s with error := some m, loading := false }
  | .clearRecipes => { s with recipes := [], selectedRecipe := none }
  | .selectRecipe r => { s with selectedRecipe := r }
  | .clearError => { s with error := none }

/-- Run a sequence of updates from the initial state. -/
def runRecipeUI (ops : List RecipeUIOp) : RecipeUIState :=
  ops.foldl stepRecipeUI initialRecipeUIState

/-- Wrapping a completion text in Markdown fence markers, exactly as in the
spec's round-trip property: a leading fence with language tag and newline,
and a trailing newline-and-fence. -/
def wrapFence (s : String) : String := "```json\n" ++ s ++ "\n```"

/-- A request body carrying only an `ingredients` array of strings. -/
def mkIngredientsBody (l : List String) : JValue :=
  .obj [("ingredients", .arr (l.map JValue.str))]

/-- A request body with a fixed valid ingredient list and an explicit
`servings` number. -/
def mkServingsBody (q : Rat) : JValue :=
  .obj [("ingredients", .arr [.str "chicken", .str "rice"]), ("servings", .num q)]

/-! ## Properties of the fence-stripping pass -/

lemma sfA (l : List Char) : stripFences ('`' :: '`' :: '`' :: 'j' :: 's' :: 'o' :: 'n' :: '\n' :: l) = stripFences l := rfl

lemma sfB (c : Char) (hc : c ≠ '\n') (l : List Char) :
    stripFences ('`' :: '`' :: '`' :: 'j' :: 's' :: 'o' :: 'n' :: c :: l) = stripFences (c :: l) := by
  conv_lhs => rw [stripFences.eq_def]
  split <;> (try subst_eqs) <;> simp_all

lemma sfC (l : List Char) : stripFences ('\n' :: '`' :: '`' :: '`' :: l) = stripFences l := rfl

lemma sfD (l : List Char) (h : ¬ ['j', 's', 'o', 'n'].isPrefixOf l) :
    stripFences ('`' :: '`' :: '`' :: l) = stripFences l := by
  conv_lhs => rw [stripFences.eq_def]
  split <;> (try subst_eqs) <;> simp_all [List.isPrefixOf]

lemma sfE (c : Char) (hc1 : c ≠ '`') (hc2 : c ≠ '\n') (l : List Char) :
    stripFences (c :: l) = c :: stripFences l := by
  conv_lhs => rw [stripFences.eq_def]
  split <;> (try subst_eqs) <;> simp_all

lemma sfF (l : List Char) (h : ¬ ['`', '`', '`'].isPrefixOf l) :
    stripFences ('\n' :: l) = '\n' :: stripFences l := by
  conv_lhs => rw [stripFences.eq_def]
  split <;> (try subst_eqs) <;> simp_all [List.isPrefixOf]

lemma sfG (l : List Char) (h : ¬ ['`', '`'].isPrefixOf l) :
    stripFences ('`' :: l) = '`' :: stripFences l := by
  conv_lhs => rw [stripFences.eq_def]
  split <;> (try subst_eqs) <;> simp_all [List.isPrefixOf]

lemma jsonPre (r : List Char) :
    ['j', 's', 'o', 'n'].isPrefixOf (r ++ ['\n', '`', '`', '`']) = ['j', 's', 'o', 'n'].isPrefixOf r := by
  rcases r with _ | ⟨a, _ | ⟨b, _ | ⟨c, _ | ⟨d, r4⟩⟩⟩⟩ <;> simp [List.isPrefixOf]

lemma bt3Pre (r : List Char) :
    ['`', '`', '`'].isPrefixOf (r ++ ['\n', '`', '`', '`']) = ['`', '`', '`'].isPrefixOf r := by
  rcases r with _ | ⟨a, _ | ⟨b, _ | ⟨c, r3⟩⟩⟩ <;> simp [List.isPrefixOf]

lemma bt2Pre (r : List Char) :
    ['`', '`'].isPrefixOf (r ++ ['\n', '`', '`', '`']) = ['`', '`'].isPrefixOf r := by
  rcases r with _ | ⟨a, _ | ⟨b, r2⟩⟩ <;> simp [List.isPrefixOf]

/-- Appending a trailing fence `"\n` ++ "``" ++ "`"` is a no-op for the global
fence-stripping pass, whatever the preceding text is. -/
theorem stripFences_suffix (t : List Char) :
    stripFences (t ++ ['\n', '`', '`', '`']) = stripFences t := by
  have main : ∀ (n : Nat) (t : List Char), t.length ≤ n →
      stripFences (t ++ ['\n', '`', '`', '`']) = stripFences t := by
    intro n
    induction n with
    | zero =>
      intro t ht
      obtain rfl : t = [] := List.length_eq_zero.mp (Nat.le_zero.mp ht)
      rfl
    | succ n ih =>
      intro t ht
      rcases t with _ | ⟨a, r⟩
      · rfl
      · simp only [List.length_cons, Nat.add_le_add_iff_right] at ht
        by_cases ha1 : a = '\n'
        · subst ha1
          by_cases h3 : ['`', '`', '`'].isPrefixOf r
          · obtain ⟨u, rfl⟩ := List.isPrefixOf_iff_prefix.mp h3
            simp only [List.cons_append, List.nil_append, sfC]
            exact ih u (by simp at ht; omega)
          · have h3S : ¬ ['`', '`', '`'].isPrefixOf (r ++ ['\n', '`', '`', '`']) := by
              rw [bt3Pre]; exact h3
            rw [List.cons_append, sfF _ h3S, sfF _ h3]
            rw [ih r ht]
        · by_cases ha2 : a = '`'
          · subst ha2
            by_cases h2 : ['`', '`'].isPrefixOf r
            · obtain ⟨u, rfl⟩ := List.isPrefixOf_iff_prefix.mp h2
              by_cases hj : ['j', 's', 'o', 'n'].isPrefixOf u
              · obtain ⟨w, rfl⟩ := List.isPrefixOf_iff_prefix.mp hj
                rcases w with _ | ⟨c, r8⟩
                · rfl
                · by_cases hc : c = '\n'
                  · subst hc
                    simp only [List.cons_append, List.append_assoc, List.nil_append, sfA]
                    exact ih r8 (by simp at ht; omega)
                  · simp only [List.cons_append, List.append_assoc, List.nil_append, sfB c hc]
                    exact ih (c :: r8) (by simp at ht ⊢; omega)
              · have hjS : ¬ ['j', 's', 'o', 'n'].isPrefixOf (u ++ ['\n', '`', '`', '`']) := by
                  rw [jsonPre]; exact hj
                simp only [List.cons_append, List.append_assoc, List.nil_append]
                rw [sfD _ hjS, sfD _ hj]
                exact ih u (by simp at ht; omega)
            · have h2S : ¬ ['`', '`'].isPrefixOf (r ++ ['\n', '`', '`', '`']) := by
                rw [bt2Pre]; exact h2
              rw [List.cons_append, sfG _ h2S, sfG _ h2]
              rw [ih r ht]
          · rw [List.cons_append, sfE a ha2 ha1, sfE a ha2 ha1]
            rw [ih r ht]
  exact main t.length t le_rfl

/-- Cleaning is invariant under fence-wrapping, for EVERY completion text. -/
theorem cleanString_wrapFence (s : String) : cleanString (wrapFence s) = cleanString s := by
  unfold cleanString wrapFence cleanChars
  have hdata : ("```json\n" ++ s ++ "\n```").data
      = '`' :: '`' :: '`' :: 'j' :: 's' :: 'o' :: 'n' :: '\n' :: (s.data ++ ['\n', '`', '`', '`']) := by
    simp [String.data_append]
  rw [hdata, sfA, stripFences_suffix]

/-! ## Claim theorems -/

/-- C4 (amended): for EVERY completion text `t` (well-formed JSON or not),
the recipe response parser yields identical results on `t` wrapped in
Markdown code-fence markers and on `t` directly.  (The second half of the
original claim — that stripping removes only leading/trailing delimiters and
leaves interior text unchanged — is refuted by
`responseParser_fence_global_counterexample`: the replace is global.) -/
theorem responseParser_fence_roundtrip (c : Nat) (s : String) :
    parseRecipeResponse c (wrapFence s) = parseRecipeResponse c s := by
  unfold parseRecipeResponse
  rw [cleanString_wrapFence]

/-- C4 (counterexample): a completion text with no leading/trailing fences
and no surrounding whitespace — trimming alone leaves it unchanged — whose
INTERIOR backtick run is nevertheless removed by the cleaning step, changing
a string value from `a```b` to `ab`; so the stripping step does not leave
the interior JSON text unchanged. -/
theorem responseParser_fence_global_counterexample :
    cleanString "\x7b\"recipes\":[\x7b\"name\":\"a```b\"\x7d]\x7d"
        = "\x7b\"recipes\":[\x7b\"name\":\"ab\"\x7d]\x7d"
    ∧ jsTrim ("\x7b\"recipes\":[\x7b\"name\":\"a```b\"\x7d]\x7d").data
        = ("\x7b\"recipes\":[\x7b\"name\":\"a```b\"\x7d]\x7d").data
    ∧ "\x7b\"recipes\":[\x7b\"name\":\"a```b\"\x7d]\x7d"
        ≠ "\x7b\"recipes\":[\x7b\"name\":\"ab\"\x7d]\x7d"
    ∧ jsonParse "\x7b\"recipes\":[\x7b\"name\":\"a```b\"\x7d]\x7d"
        = some (.obj [("recipes", .arr [.obj [("name", .str "a```b")]])])
    ∧ parseRecipeResponse 0 "\x7b\"recipes\":[\x7b\"name\":\"a```b\"\x7d]\x7d"
        = .ok [JValue.obj [("name", .str "ab"), ("id", .str "r")]] :=
  ⟨rfl, rfl, by decide, rfl, rfl⟩

/-- C10: in the `useRecipes` state machine, after any sequence of updates
from the initial state, `loading = true` implies `error = null`; moreover a
step can only turn `error` non-null while simultaneously setting
`loading = false`. -/
theorem useRecipes_loading_error_invariant (ops : List RecipeUIOp) :
    ((runRecipeUI ops).loading = true → (runRecipeUI ops).error = none)
    ∧ ∀ (s : RecipeUIState) (op : RecipeUIOp),
        s.error = none → (stepRecipeUI s op).error ≠ none →
          (stepRecipeUI s op).loading = false := by
  constructor
  · have step : ∀ (s : RecipeUIState) (op : RecipeUIOp),
        (s.loading = true → s.error = none) →
          ((stepRecipeUI s op).loading = true → (stepRecipeUI s op).error = none) := by
      intro s op h
      cases op <;> simp_all [stepRecipeUI]
    have main : ∀ (l : List RecipeUIOp) (s : RecipeUIState),
        (s.loading = true → s.error = none) →
          ((l.foldl stepRecipeUI s).loading = true → (l.foldl stepRecipeUI s).error = none) := by
      intro l
      induction l with
      | nil => intro s h; exact h
      | cons op rest ih => intro s h; exact ih _ (step s op h)
    exact main ops initialRecipeUIState (by intro h; rfl)
  · intro s op h1 h2
    cases op <;> simp_all [stepRecipeUI]

/-- C10 (witness): concrete uses of both parts of the invariant. -/
theorem useRecipes_loading_error_invariant_witness :
    (runRecipeUI [RecipeUIOp.startGenerate]).error = none
    ∧ (stepRecipeUI initialRecipeUIState (RecipeUIOp.finishGenerateFailure "boom")).loading = false :=
  ⟨(useRecipes_loading_error_invariant [RecipeUIOp.startGenerate]).1 rfl,
   (useRecipes_loading_error_invariant []).2 initialRecipeUIState
     (RecipeUIOp.finishGenerateFailure "boom") rfl (by simp [stepRecipeUI, initialRecipeUIState])⟩

/-- C7: whenever the request body fails `IngredientInputSchema` validation,
`POST /api/recipes` answers 400 (never 500) with `success: false` and
`error: "Validation Error"`; no prompt is built and the model invoker is not
called — the result does not depend on the model outcome at all. -/
theorem postRecipes_validation_error (now : Rat) (mc : Except Unit String) (body : JValue)
    (msg : String) (h : parseIngredientInput body = .error msg) :
    postRecipes now mc body = ⟨400, validationErrorBody msg, false, false⟩
    ∧ (postRecipes now mc body).status = 400
    ∧ (postRecipes now mc body).status ≠ 500
    ∧ (postRecipes now mc body).promptBuilt = false
    ∧ (postRecipes now mc body).invokerCalled = false
    ∧ lookupJ (postRecipes now mc body).body "success" = some (.bool false)
    ∧ lookupJ (postRecipes now mc body).body "error" = some (.str "Validation Error")
    ∧ ∀ mc2 : Except Unit String, postRecipes now mc2 body = postRecipes now mc body := by
  have hres : ∀ mc2 : Except Unit String,
      postRecipes now mc2 body = ⟨400, validationErrorBody msg, false, false⟩ := by
    intro mc2
    unfold postRecipes
    rw [h]
  refine ⟨hres mc, ?_, ?_, ?_, ?_, ?_, ?_, ?_⟩
  all_goals simp [hres, validationErrorBody, lookupJ, List.lookup]

/-- C7 (witness): the empty ingredient list fails validation before any
model work: status 400, invoker not called. -/
theorem postRecipes_validation_error_witness :
    (postRecipes 0 (Except.error ()) (mkIngredientsBody [])).status = 400
    ∧ (postRecipes 0 (Except.error ()) (mkIngredientsBody [])).invokerCalled = false :=
  ⟨(postRecipes_validation_error 0 (Except.error ()) (mkIngredientsBody [])
      "Please enter at least 2 ingredients" rfl).2.1,
   (postRecipes_validation_error 0 (Except.error ()) (mkIngredientsBody [])
      "Please enter at least 2 ingredients" rfl).2.2.2.2.1⟩

/-! ## Input-validation lemmas -/

lemma ingredientElems_ok (l : List String) (h : ∀ s ∈ l, 1 ≤ s.length ∧ s.length ≤ 50) :
    ingredientElems (l.map JValue.str) = .ok l := by
  induction l with
  | nil => rfl
  | cons a r ih =>
    obtain ⟨h1, h2⟩ := h a (by simp)
    have hr := ih (fun s hs => h s (by simp [hs]))
    simp [ingredientElems, Nat.not_lt.mpr h1, Nat.not_lt.mpr h2, hr, Except.map]

lemma ingredientElems_ok_iff (l : List String) :
    (∃ out, ingredientElems (l.map JValue.str) = .ok out)
      ↔ ∀ s ∈ l, 1 ≤ s.length ∧ s.length ≤ 50 := by
  constructor
  · intro ⟨out, hout⟩ s hs
    induction l generalizing out with
    | nil => simp at hs
    | cons a r ih =>
      by_cases ha1 : a.length < 1
      · simp [ingredientElems, ha1] at hout
      by_cases ha2 : 50 < a.length
      · simp [ingredientElems, ha1, ha2] at hout
      rw [List.mem_cons] at hs
      rcases hs with rfl | hs
      · exact ⟨by omega, by omega⟩
      · simp only [ingredientElems, if_neg ha1, if_neg ha2, List.map_cons] at hout
        cases hrec : ingredientElems (r.map JValue.str) with
        | error e => rw [hrec] at hout; simp [Except.map] at hout
        | ok outr => exact ih outr (by rw [hrec]) hs
  · intro h
    exact ⟨l, ingredientElems_ok l h⟩

lemma parseIngredientInput_mkBody (l : List String) :
    parseIngredientInput (mkIngredientsBody l)
      = (parseIngredientsField (.arr (l.map JValue.str))).bind
          (fun ing => .ok ⟨ing, [], 4, none⟩) := by
  simp only [parseIngredientInput, mkIngredientsBody, List.lookup, BEq.beq, decide_eq_true_eq]
  cases hp : parseIngredientsField (.arr (l.map JValue.str)) <;>
    simp [hp, parseDietaryField, parseServingsField, parseMaxPrepTimeField, Except.bind, bind]

lemma ingredientElems_first_bad (l1 : List String) (s : String) (l2 : List String)
    (hgood : ∀ x ∈ l1, 1 ≤ x.length ∧ x.length ≤ 50) :
    (s.length = 0 →
      ingredientElems ((l1 ++ s :: l2).map JValue.str) = .error "Ingredient cannot be empty")
    ∧ (50 < s.length →
      ingredientElems ((l1 ++ s :: l2).map JValue.str) = .error "Ingredient name too long") := by
  induction l1 with
  | nil =>
    constructor
    · intro hs0
      simp [ingredientElems, hs0]
    · intro hs50
      have h1 : ¬ s.length < 1 := by omega
      simp [ingredientElems, h1, hs50]
  | cons a rest ih =>
    obtain ⟨h1, h2⟩ := hgood a (by simp)
    have hr := ih (fun x hx => hgood x (by simp [hx]))
    constructor
    · intro hs0
      have he := hr.1 hs0
      simp only [List.map_append, List.map_cons] at he
      simp [ingredientElems, Nat.not_lt.mpr h1, Nat.not_lt.mpr h2, he, Except.map]
    · intro hs50
      have he := hr.2 hs50
      simp only [List.map_append, List.map_cons] at he
      simp [ingredientElems, Nat.not_lt.mpr h1, Nat.not_lt.mpr h2, he, Except.map]

/-- C2 (amended): `IngredientInputSchema` validation of an ingredient list
succeeds exactly when the list length is in [2, 15] and every item's length
is in [1, 50]; each failure mode produces its specific deterministic
message (the two list-length messages, and at the first offending element
the empty-item / too-long-item message).  No character allow-list and no
duplicate check is applied at this level (those exist only as entry-time UI
checks, see the counterexample). -/
theorem inputValidation_characterization (l : List String) :
    ((∃ out, parseIngredientInput (mkIngredientsBody l) = .ok out)
        ↔ 2 ≤ l.length ∧ l.length ≤ 15 ∧ ∀ s ∈ l, 1 ≤ s.length ∧ s.length ≤ 50)
    ∧ (l.length < 2 →
        parseIngredientInput (mkIngredientsBody l) = .error "Please enter at least 2 ingredients")
    ∧ (15 < l.length →
        parseIngredientInput (mkIngredientsBody l) = .error "Maximum 15 ingredients allowed")
    ∧ (2 ≤ l.length → l.length ≤ 15 → (∀ s ∈ l, 1 ≤ s.length ∧ s.length ≤ 50) →
        parseIngredientInput (mkIngredientsBody l) = .ok ⟨l, [], 4, none⟩)
    ∧ (∀ (l1 : List String) (s : String) (l2 : List String),
        l = l1 ++ s :: l2 → (∀ x ∈ l1, 1 ≤ x.length ∧ x.length ≤ 50) →
        2 ≤ l.length → l.length ≤ 15 →
          (s.length = 0 →
            parseIngredientInput (mkIngredientsBody l) = .error "Ingredient cannot be empty")
          ∧ (50 < s.length →
            parseIngredientInput (mkIngredientsBody l) = .error "Ingredient name too long")) := by
  have hred := parseIngredientInput_mkBody l
  by_cases h2 : l.length < 2
  · have hpf : parseIngredientsField (.arr (l.map JValue.str))
        = .error "Please enter at least 2 ingredients" := by
      simp [parseIngredientsField, List.length_map, h2]
    rw [hpf] at hred
    refine ⟨?_, fun _ => by rw [hred]; rfl, fun h15 => by omega, fun ha _ _ => by omega,
      fun _ _ _ _ _ ha _ => by omega⟩
    constructor
    · intro ⟨out, hout⟩
      rw [hred] at hout
      simp [Except.bind] at hout
    · intro ⟨ha, _, _⟩
      omega
  · by_cases h15 : 15 < l.length
    · have hpf : parseIngredientsField (.arr (l.map JValue.str))
          = .error "Maximum 15 ingredients allowed" := by
        simp [parseIngredientsField, List.length_map, h2, h15]
      rw [hpf] at hred
      refine ⟨?_, fun hlt => by omega, fun _ => by rw [hred]; rfl, fun _ hb _ => by omega,
        fun _ _ _ _ _ _ hb => by omega⟩
      constructor
      · intro ⟨out, hout⟩
        rw [hred] at hout
        simp [Except.bind] at hout
      · intro ⟨_, hb, _⟩
        omega
    · have hpf : parseIngredientsField (.arr (l.map JValue.str))
          = ingredientElems (l.map JValue.str) := by
        simp [parseIngredientsField, List.length_map, h2, h15]
      rw [hpf] at hred
      refine ⟨?_, fun hlt => by omega, fun hgt => by omega, fun _ _ hc => ?_,
        fun l1 s l2 heq hgood _ _ => ?_⟩
      · constructor
        · intro ⟨out, hout⟩
          rw [hred] at hout
          cases hi : ingredientElems (l.map JValue.str) with
          | error e => rw [hi] at hout; simp [Except.bind] at hout
          | ok o => exact ⟨by omega, by omega, (ingredientElems_ok_iff l).mp ⟨o, hi⟩⟩
        · intro ⟨_, _, hc⟩
          rw [hred, ingredientElems_ok l hc]
          exact ⟨⟨l, [], 4, none⟩, rfl⟩
      · rw [hred, ingredientElems_ok l hc]
        rfl
      · subst heq
        constructor
        · intro hs0
          rw [hred, (ingredientElems_first_bad l1 s l2 hgood).1 hs0]
          rfl
        · intro hs50
          rw [hred, (ingredientElems_first_bad l1 s l2 hgood).2 hs50]
          rfl

lemma parseIngredientInput_mkServingsBody (q : Rat) :
    parseIngredientInput (mkServingsBody q)
      = (parseServingsField (some (.num q))).bind
          (fun sv => .ok ⟨["chicken", "rice"], [], sv, none⟩) := by
  cases hs : parseServingsField (some (.num q)) <;>
    simp [parseIngredientInput, mkServingsBody, List.lookup, parseIngredientsField,
      ingredientElems, parseDietaryField, parseMaxPrepTimeField, hs, Except.bind, bind,
      Except.map, (by decide : "chicken".length = 7), (by decide : "rice".length = 4)]

/-- C6 (amended): servings validation accepts any NUMBER in [1, 12] (no
integrality requirement), defaults to 4 when the field is absent, rejects
`servings = 0` with the minimum-servings message and `servings = 13` with
the maximum-servings message. -/
theorem servingsValidation_characterization (q : Rat) :
    (1 ≤ q → q ≤ 12 →
      parseIngredientInput (mkServingsBody q) = .ok ⟨["chicken", "rice"], [], q, none⟩)
    ∧ (q < 1 →
      parseIngredientInput (mkServingsBody q) = .error "At least 1 serving required")
    ∧ (12 < q →
      parseIngredientInput (mkServingsBody q) = .error "Maximum 12 servings allowed")
    ∧ parseIngredientInput (mkIngredientsBody ["chicken", "rice"])
        = .ok ⟨["chicken", "rice"], [], 4, none⟩
    ∧ parseIngredientInput (mkServingsBody 0) = .error "At least 1 serving required"
    ∧ parseIngredientInput (mkServingsBody 13) = .error "Maximum 12 servings allowed" := by
  refine ⟨?_, ?_, ?_, rfl, rfl, rfl⟩
  · intro h1 h12
    rw [parseIngredientInput_mkServingsBody]
    simp [parseServingsField, not_lt.mpr h1, not_lt.mpr h12, Except.bind, bind]
  · intro h
    rw [parseIngredientInput_mkServingsBody]
    simp [parseServingsField, h, Except.bind, bind]
  · intro h
    rw [parseIngredientInput_mkServingsBody]
    have hq1 : ¬ q < 1 := by push_neg; linarith
    simp [parseServingsField, hq1, h, Except.bind, bind]

/-- C2 (witness): a single-ingredient list fails with the minimum-count
message, and an empty second item fails with the empty-element message. -/
theorem inputValidation_characterization_witness :
    parseIngredientInput (mkIngredientsBody ["a"]) = .error "Please enter at least 2 ingredients"
    ∧ parseIngredientInput (mkIngredientsBody ["chicken", ""])
        = .error "Ingredient cannot be empty" :=
  ⟨(inputValidation_characterization ["a"]).2.1 (by decide),
   ((inputValidation_characterization ["chicken", ""]).2.2.2.2 ["chicken"] "" [] rfl
      (by decide) (by decide) (by decide)).1 rfl⟩

/-- C2 (counterexample): a list whose items violate the allow-list pattern,
and a list with (case-insensitively) duplicate items, both PASS schema
validation — refuting the claim that such lists fail validation. -/
theorem inputValidation_pattern_counterexample :
    parseIngredientInput (mkIngredientsBody ["a!", "b@"]) = .ok ⟨["a!", "b@"], [], 4, none⟩
    ∧ isValidIngredient "a!" = false
    ∧ isValidIngredient "b@" = false
    ∧ parseIngredientInput (mkIngredientsBody ["Rice", "rice"]) = .ok ⟨["Rice", "rice"], [], 4, none⟩ :=
  ⟨rfl, by decide, by decide, rfl⟩

/-- C6 (witness): servings 4 is accepted unchanged. -/
theorem servingsValidation_characterization_witness :
    parseIngredientInput (mkServingsBody 4) = .ok ⟨["chicken", "rice"], [], 4, none⟩ :=
  (servingsValidation_characterization 4).1 (by norm_num) (by norm_num)

/-- C6 (counterexample): the non-integer 9/2 = 4.5 is accepted by
validation (no `.int()` refinement exists), refuting "accepts exactly the
integers in [1, 12]". -/
theorem servingsValidation_integer_counterexample :
    parseIngredientInput (mkServingsBody (mkRat 9 2))
        = .ok ⟨["chicken", "rice"], [], mkRat 9 2, none⟩
    ∧ (mkRat 9 2).den ≠ 1 :=
  ⟨rfl, by decide⟩

/-! ## Response-parser failure lemmas -/

lemma extractRecipes_error_iff (v : JValue) :
    (∃ e, extractRecipes v = .error e) ↔ ∀ rs, lookupJ v "recipes" ≠ some (.arr rs) := by
  cases v <;> simp [extractRecipes, lookupJ]
  case obj fs =>
    cases hl : fs.lookup "recipes" with
    | none => simp
    | some w => cases w <;> simp

lemma extractRecipes_ne_syntax (v : JValue) (e : RecipeParseError)
    (h : extractRecipes v = .error e) : e ≠ .jsonSyntax := by
  intro he
  subst he
  cases v <;> simp_all [extractRecipes]
  case obj fs =>
    cases hl : fs.lookup "recipes" with
    | none => rw [hl] at h; simp_all
    | some w => rw [hl] at h; cases w <;> simp_all

lemma extractSubstitutions_ok_iff (v : JValue) :
    (∃ w, extractSubstitutions v = .ok w)
      ↔ ∃ fs ww, v = .obj fs ∧ fs.lookup "substitutions" = some ww ∧ truthy ww = true := by
  cases v <;> simp [extractSubstitutions]
  case obj fs =>
    cases hl : fs.lookup "substitutions" with
    | none => simp
    | some w => cases ht : truthy w <;> simp_all

/-- C3 (amended): the recipes-variant parser fails exactly when the cleaned
text is not valid JSON or the parsed value lacks an array-typed `recipes`
property; the JSON-syntax failure kind occurs exactly on invalid JSON (so
the missing-field failure is distinct from it); invalid JSON never yields a
recipe list; a present-but-empty `recipes` array yields the empty list.
For the substitutions variant the gate is only TRUTHINESS of the
`substitutions` property — not array-ness (see the counterexample) — and all
its failures collapse into the one generic message. -/
theorem responseParser_failure_characterization (c : Nat) (s : String) :
    ((∃ e, parseRecipeResponse c s = .error e)
        ↔ (jsonParse (cleanString s) = none
            ∨ ∃ v, jsonParse (cleanString s) = some v ∧ ∀ rs, lookupJ v "recipes" ≠ some (.arr rs)))
    ∧ (parseRecipeResponse c s = .error .jsonSyntax ↔ jsonParse (cleanString s) = none)
    ∧ (jsonParse (cleanString s) = none → ∀ rs, parseRecipeResponse c s ≠ .ok rs)
    ∧ (∀ fs, jsonParse (cleanString s) = some (.obj fs) →
        fs.lookup "recipes" = some (.arr []) → parseRecipeResponse c s = .ok [])
    ∧ parseRecipeResponse c "```json\n\x7b\"recipes\":[]\x7d\n```" = .ok []
    ∧ ((∃ w, generateSubstitutionsModel s = .ok w)
        ↔ ∃ fs ww, jsonParse (cleanString s) = some (.obj fs)
            ∧ fs.lookup "substitutions" = some ww ∧ truthy ww = true)
    ∧ (∀ m, generateSubstitutionsModel s = .error m →
        m = "Failed to generate ingredient substitutions") := by
  refine ⟨?_, ?_, ?_, ?_, ?_, ?_, ?_⟩
  · cases h : jsonParse (cleanString s) with
    | none => simp [parseRecipeResponse, h]
    | some v =>
      simp only [parseRecipeResponse, h]
      constructor
      · intro ⟨e, he⟩
        refine Or.inr ⟨v, rfl, ?_⟩
        apply (extractRecipes_error_iff v).mp
        cases hx : extractRecipes v with
        | error e0 => exact ⟨e0, rfl⟩
        | ok rs => rw [hx] at he; simp [Except.map] at he
      · rintro (hn | ⟨v2, hv2, hall⟩)
        · simp at hn
        · obtain rfl : v2 = v := by injection hv2 with h2; exact h2.symm
          obtain ⟨e, he⟩ := (extractRecipes_error_iff _).mpr hall
          exact ⟨e, by rw [he]; rfl⟩
  · cases h : jsonParse (cleanString s) with
    | none => simp [parseRecipeResponse, h]
    | some v =>
      simp only [parseRecipeResponse, h]
      constructor
      · intro he
        exfalso
        cases hx : extractRecipes v with
        | error e0 =>
          rw [hx] at he
          simp [Except.map] at he
          exact extractRecipes_ne_syntax v e0 hx he
        | ok rs => rw [hx] at he; simp [Except.map] at he
      · intro he
        simp at he
  · intro h rs
    simp [parseRecipeResponse, h]
  · intro fs h1 h2
    simp [parseRecipeResponse, h1, extractRecipes, h2, Except.map, assignIds]
  · rfl
  · cases h : jsonParse (cleanString s) with
    | none =>
      simp only [generateSubstitutionsModel, h]
      constructor
      · intro ⟨w, hw⟩
        simp at hw
      · intro ⟨fs, ww, hfs, _⟩
        simp at hfs
    | some v =>
      simp only [generateSubstitutionsModel, h]
      constructor
      · intro ⟨w, hw⟩
        cases hx : extractSubstitutions v with
        | error e => rw [hx] at hw; simp at hw
        | ok w2 =>
          obtain ⟨fs, ww, hv, hl, ht⟩ := (extractSubstitutions_ok_iff v).mp ⟨w2, hx⟩
          exact ⟨fs, ww, by rw [hv], hl, ht⟩
      · intro ⟨fs, ww, hfs, hl, ht⟩
        obtain rfl : v = .obj fs := by injection hfs
        obtain ⟨w, hw⟩ := (extractSubstitutions_ok_iff (.obj fs)).mpr ⟨fs, ww, rfl, hl, ht⟩
        exact ⟨w, by rw [hw]⟩
  · intro m hm
    cases h : jsonParse (cleanString s) with
    | none =>
      simp only [generateSubstitutionsModel, h] at hm
      injection hm with h2
      exact h2.symm
    | some v =>
      simp only [generateSubstitutionsModel, h] at hm
      cases hx : extractSubstitutions v with
      | error e =>
        rw [hx] at hm
        injection hm with h2
        exact h2.symm
      | ok w => rw [hx] at hm; simp at hm

/-- C3 (witness): concrete uses — a present-but-empty recipes array parses
to the empty list, and non-JSON prose yields a syntax failure, not a list. -/
theorem responseParser_failure_characterization_witness :
    parseRecipeResponse 0 "\x7b\"recipes\":[]\x7d" = .ok []
    ∧ parseRecipeResponse 0 "I am not JSON" = .error .jsonSyntax :=
  ⟨(responseParser_failure_characterization 0 "\x7b\"recipes\":[]\x7d").2.2.2.1
      [("recipes", JValue.arr [])] rfl rfl,
   (responseParser_failure_characterization 0 "I am not JSON").2.1.mpr rfl⟩

/-- C3 (counterexample): a completion whose `substitutions` property is a
present but NON-ARRAY (truthy) value is ACCEPTED by the substitutions
parser, refuting "fails iff ... lacks an array-typed substitutions field". -/
theorem substitutionsParser_truthiness_counterexample :
    generateSubstitutionsModel "\x7b\"substitutions\":\"x\"\x7d"
        = .ok (.obj [("substitutions", .str "x")])
    ∧ isArr (.str "x") = false :=
  ⟨rfl, rfl⟩

/-! ## Domain-mapper lemmas -/

lemma generateId_injective : Function.Injective generateId := by
  intro a b h
  have hd : List.replicate (a + 1) 'r' = List.replicate (b + 1) 'r' := congrArg String.data h
  have := congrArg List.length hd
  simp only [List.length_replicate] at this
  omega

lemma lookup_updateField_self (fs : List (String × JValue)) (k : String) (v : JValue) :
    List.lookup k (updateField fs k v) = some v := by
  induction fs with
  | nil => simp [updateField, List.lookup]
  | cons p rest ih =>
    obtain ⟨k1, v1⟩ := p
    by_cases hp : k1 = k
    · subst hp
      simp [updateField, List.lookup]
    · have hb : (k == k1) = false := beq_eq_false_iff_ne.mpr (Ne.symm hp)
      simp [updateField, hp, List.lookup, hb, ih]

lemma lookup_updateField_ne (fs : List (String × JValue)) (k : String) (v : JValue)
    (k2 : String) (h : k2 ≠ k) :
    List.lookup k2 (updateField fs k v) = List.lookup k2 fs := by
  have hb : (k2 == k) = false := beq_eq_false_iff_ne.mpr h
  induction fs with
  | nil => simp [updateField, List.lookup, hb]
  | cons p rest ih =>
    obtain ⟨k1, v1⟩ := p
    by_cases hp : k1 = k
    · subst hp
      simp [updateField, List.lookup, hb]
    · simp [updateField, hp, List.lookup, ih]

lemma spreadWithId_id (fs : List (String × JValue)) (idv : String) :
    lookupJ (spreadWithId (.obj fs) idv) "id" = some (.str idv) := by
  simp [spreadWithId, lookupJ, lookup_updateField_self]

lemma spreadWithId_ne (fs : List (String × JValue)) (idv : String) (k : String) (h : k ≠ "id") :
    lookupJ (spreadWithId (.obj fs) idv) k = lookupJ (.obj fs) k := by
  simp [spreadWithId, lookupJ, lookup_updateField_ne fs "id" (.str idv) k h]

lemma assignIds_length (c : Nat) (rs : List JValue) : (assignIds c rs).length = rs.length := by
  induction rs generalizing c with
  | nil => rfl
  | cons r rest ih => simp [assignIds, ih]

lemma assignIds_map_id (c : Nat) (rs : List JValue)
    (hobj : ∀ r ∈ rs, ∃ fs, r = JValue.obj fs) :
    (assignIds c rs).map (fun r => lookupJ r "id")
      = (List.range rs.length).map (fun i => some (.str (generateId (c + i)))) := by
  induction rs generalizing c with
  | nil => rfl
  | cons r rest ih =>
    obtain ⟨fs, rfl⟩ := hobj r (by simp)
    have hr := ih (c + 1) (fun x hx => hobj x (by simp [hx]))
    simp only [assignIds, List.map_cons, spreadWithId_id, hr, List.length_cons,
      List.range_succ_eq_map, List.map_map]
    congr 1
    apply List.map_congr_left
    intro i _
    simp [Function.comp, Nat.add_assoc, Nat.add_comm 1 i]

lemma assignIds_get_id (c : Nat) (rs : List JValue)
    (hobj : ∀ r ∈ rs, ∃ fs, r = JValue.obj fs) :
    ∀ (i : Nat) (h2 : i < (assignIds c rs).length),
      lookupJ ((assignIds c rs).get ⟨i, h2⟩) "id" = some (.str (generateId (c + i))) := by
  induction rs generalizing c with
  | nil => intro i h2; simp [assignIds] at h2
  | cons r rest ih =>
    intro i h2
    obtain ⟨fs, rfl⟩ := hobj r (by simp)
    cases i with
    | zero => simpa [assignIds] using spreadWithId_id fs (generateId c)
    | succ j =>
      have hlen : j < (assignIds (c + 1) rest).length := by
        simp [assignIds] at h2
        simpa [assignIds_length] using h2
      have hrec := ih (c + 1) (fun x hx => hobj x (by simp [hx])) j hlen
      simpa [assignIds, Nat.add_assoc, Nat.add_comm 1 j] using hrec

lemma assignIds_id_nodup (c : Nat) (rs : List JValue)
    (hobj : ∀ r ∈ rs, ∃ fs, r = JValue.obj fs) :
    ((assignIds c rs).map (fun r => lookupJ r "id")).Nodup := by
  rw [assignIds_map_id c rs hobj]
  apply List.Nodup.map
  · intro x y hxy
    simp only [Option.some.injEq, JValue.str.injEq] at hxy
    have := generateId_injective hxy
    omega
  · exact List.nodup_range rs.length

lemma assignIds_get_passthrough (c : Nat) (rs : List JValue)
    (hobj : ∀ r ∈ rs, ∃ fs, r = JValue.obj fs) :
    ∀ (i : Nat) (h1 : i < rs.length) (h2 : i < (assignIds c rs).length) (k : String),
      k ≠ "id" →
        lookupJ ((assignIds c rs).get ⟨i, h2⟩) k = lookupJ (rs.get ⟨i, h1⟩) k := by
  induction rs generalizing c with
  | nil => intro i h1; simp at h1
  | cons r rest ih =>
    intro i h1 h2 k hk
    obtain ⟨fs, rfl⟩ := hobj r (by simp)
    cases i with
    | zero => simpa [assignIds] using spreadWithId_ne fs (generateId c) k hk
    | succ j =>
      have hl1 : j < rest.length := by simp at h1; omega
      have hlen : j < (assignIds (c + 1) rest).length := by
        simp [assignIds] at h2
        simpa [assignIds_length] using h2
      have hrec := ih (c + 1) (fun x hx => hobj x (by simp [hx])) j hl1 hlen k hk
      simpa [assignIds] using hrec

/-- C8: the Domain Mapper returns as many records as recipe objects came in
and in the same order: element i carries the i-th freshly generated
identifier, identifiers are pairwise distinct within the batch, and every
field other than the overwritten `id` passes through unchanged. -/
theorem domainMapper_characterization (c : Nat) (rs : List JValue)
    (hobj : ∀ r ∈ rs, ∃ fs, r = JValue.obj fs) :
    (assignIds c rs).length = rs.length
    ∧ (∀ (i : Nat) (h2 : i < (assignIds c rs).length),
        lookupJ ((assignIds c rs).get ⟨i, h2⟩) "id" = some (.str (generateId (c + i))))
    ∧ ((assignIds c rs).map (fun r => lookupJ r "id")).Nodup
    ∧ (∀ (i : Nat) (h1 : i < rs.length) (h2 : i < (assignIds c rs).length) (k : String),
        k ≠ "id" →
          lookupJ ((assignIds c rs).get ⟨i, h2⟩) k = lookupJ (rs.get ⟨i, h1⟩) k) :=
  ⟨assignIds_length c rs, assignIds_get_id c rs hobj, assignIds_id_nodup c rs hobj,
   assignIds_get_passthrough c rs hobj⟩

/-- C8 (witness): a concrete two-recipe batch — distinct ids and an
untouched `name` field. -/
theorem domainMapper_characterization_witness :
    ((assignIds 0 [JValue.obj [("name", .str "Soup")], JValue.obj []]).map
        (fun r => lookupJ r "id")).Nodup
    ∧ lookupJ ((assignIds 0 [JValue.obj [("name", .str "Soup")], JValue.obj []]).get
        ⟨0, by decide⟩) "name" = some (.str "Soup") := by
  have hobj : ∀ r ∈ [JValue.obj [("name", JValue.str "Soup")], JValue.obj []],
      ∃ fs, r = JValue.obj fs := by
    intro r hr
    simp only [List.mem_cons, List.not_mem_nil, or_false] at hr
    rcases hr with rfl | rfl
    · exact ⟨_, rfl⟩
    · exact ⟨_, rfl⟩
  refine ⟨(domainMapper_characterization 0 _ hobj).2.2.1, ?_⟩
  exact ((domainMapper_characterization 0 _ hobj).2.2.2 0 (by decide) (by decide)
    "name" (by decide)).trans rfl

/-- C1 (amended): the generation pipeline applies only shape-level gating —
whenever the cleaned completion parses to an object with an array-typed
`recipes` property, ALL its elements are handed on with ids assigned,
with no per-recipe structural validation (no `recipeSchemaCheck`
hypothesis is needed); `RecipeSchema` exists in the source but is never
invoked on this path. -/
theorem recipesPassThrough_without_validation (c : Nat) (s : String)
    (fs : List (String × JValue)) (rs : List JValue)
    (h1 : jsonParse (cleanString s) = some (.obj fs))
    (h2 : fs.lookup "recipes" = some (.arr rs)) :
    parseRecipeResponse c s = .ok (assignIds c rs) := by
  simp [parseRecipeResponse, h1, extractRecipes, h2, Except.map]

/-- C1 (witness): the fenced empty-object recipe passes through. -/
theorem recipesPassThrough_without_validation_witness :
    parseRecipeResponse 0 "```json\n\x7b\"recipes\":[\x7b\x7d]\x7d\n```"
      = .ok [JValue.obj [("id", .str "r")]] :=
  (recipesPassThrough_without_validation 0 "```json\n\x7b\"recipes\":[\x7b\x7d]\x7d\n```"
    [("recipes", .arr [.obj []])] [.obj []] rfl rfl).trans rfl

/-- C1 (counterexample): the model response `\x7b"recipes":[\x7b\x7d]\x7d`
contains a recipe object with NO required fields; it is not rejected — the
handler returns it (id attached) in a 200 response, even though it fails the
full structural schema `RecipeSchema`. -/
theorem recipesSchemaValidation_counterexample :
    parseRecipeResponse 0 "\x7b\"recipes\":[\x7b\x7d]\x7d" = .ok [JValue.obj [("id", .str "r")]]
    ∧ recipeSchemaCheck (JValue.obj [("id", .str "r")]) = false
    ∧ (postRecipes 0 (.ok "\x7b\"recipes\":[\x7b\x7d]\x7d")
        (mkIngredientsBody ["chicken", "rice"])).status = 200
    ∧ lookupJ (postRecipes 0 (.ok "\x7b\"recipes\":[\x7b\x7d]\x7d")
        (mkIngredientsBody ["chicken", "rice"])).body "recipes"
        = some (.arr [JValue.obj [("id", .str "r")]]) :=
  ⟨rfl, rfl, rfl, rfl⟩

/-- C5: on a valid request, with the model returning exactly the
DOCUMENTED payload shape, the substitutions route nests the whole parsed
object under the `substitutions` key: the response's `substitutions` field
is an object (not the documented array of \x7boriginal, alternatives\x7d
entries) and there is NO top-level `generalTips` field — the code
contradicts the repository's own api-reference.md. -/
theorem substitutionsResponse_shape_bug :
    (postSubstitutions 7
        (.ok "\x7b\"substitutions\":[\x7b\"original\":\"butter\",\"alternatives\":[]\x7d],\"generalTips\":[\"tip\"]\x7d")
        (JValue.obj [("ingredients", .arr [.str "butter"])])).status = 200
    ∧ lookupJ (postSubstitutions 7
        (.ok "\x7b\"substitutions\":[\x7b\"original\":\"butter\",\"alternatives\":[]\x7d],\"generalTips\":[\"tip\"]\x7d")
        (JValue.obj [("ingredients", .arr [.str "butter"])])).body "success"
        = some (.bool true)
    ∧ lookupJ (postSubstitutions 7
        (.ok "\x7b\"substitutions\":[\x7b\"original\":\"butter\",\"alternatives\":[]\x7d],\"generalTips\":[\"tip\"]\x7d")
        (JValue.obj [("ingredients", .arr [.str "butter"])])).body "substitutions"
        = some (.obj [("substitutions", .arr [.obj [("original", .str "butter"), ("alternatives", .arr [])]]),
            ("generalTips", .arr [.str "tip"])])
    ∧ isArr (.obj [("substitutions", .arr [.obj [("original", .str "butter"), ("alternatives", .arr [])]]),
        ("generalTips", .arr [.str "tip"])]) = false
    ∧ lookupJ (postSubstitutions 7
        (.ok "\x7b\"substitutions\":[\x7b\"original\":\"butter\",\"alternatives\":[]\x7d],\"generalTips\":[\"tip\"]\x7d")
        (JValue.obj [("ingredients", .arr [.str "butter"])])).body "generalTips" = none
    ∧ lookupJ (postSubstitutions 7
        (.ok "\x7b\"substitutions\":[\x7b\"original\":\"butter\",\"alternatives\":[]\x7d],\"generalTips\":[\"tip\"]\x7d")
        (JValue.obj [("ingredients", .arr [.str "butter"])])).body "processingTime"
        = some (.num 7) :=
  ⟨rfl, rfl, rfl, rfl, rfl, rfl⟩

/-! ## Prompt-builder lemmas -/

lemma promptT1_split : promptT1.data
    = '\n' :: 'Y' :: (promptT1A.data ++ promptCount3.data ++ promptT1B.data) := rfl

lemma promptT5_split : promptT5.data = promptT5C.data ++ ['.', '\n', ' ', ' ', ' ', ' '] := rfl

lemma jsTrim_sandwich (mid : List Char) :
    jsTrim ('\n' :: ('Y' :: mid ++ ['.']) ++ ['\n', ' ', ' ', ' ', ' '])
      = 'Y' :: mid ++ ['.'] := by
  unfold jsTrim
  have h1 : List.dropWhile isJsWs ('\n' :: ('Y' :: mid ++ ['.']) ++ ['\n', ' ', ' ', ' ', ' '])
      = ('Y' :: mid ++ ['.']) ++ ['\n', ' ', ' ', ' ', ' '] := by
    simp [List.dropWhile, isJsWs]
  rw [h1]
  have h2 : (('Y' :: mid ++ ['.']) ++ ['\n', ' ', ' ', ' ', ' ']).reverse
      = [' ', ' ', ' ', ' ', '\n'] ++ ('.' :: (mid.reverse ++ ['Y'])) := by
    simp [List.reverse_append, List.reverse_cons]
  rw [h2]
  have h3 : List.dropWhile isJsWs ([' ', ' ', ' ', ' ', '\n'] ++ ('.' :: (mid.reverse ++ ['Y'])))
      = '.' :: (mid.reverse ++ ['Y']) := by
    simp [List.dropWhile, isJsWs]
  rw [h3]
  simp [List.reverse_append, List.reverse_cons]

lemma promptChars_normal (ing fl : List String) (sv : Rat) :
    promptChars ing fl sv
      = '\n' :: ('Y' :: (promptT1A.data ++ promptCount3.data ++ promptT1B.data
          ++ (joinComma ing).data ++ promptT2.data ++ (jsNumToString sv).data
          ++ promptT3.data ++ (if fl.length > 0 then (dietaryClause fl).data else [])
          ++ promptT4.data ++ (jsNumToString sv).data ++ promptT5C.data) ++ ['.'])
        ++ ['\n', ' ', ' ', ' ', ' '] := by
  unfold promptChars
  rw [promptT1_split, promptT5_split]
  simp [List.append_assoc]

lemma buildRecipePrompt_data (ing fl : List String) (sv : Rat) :
    (buildRecipePrompt ing fl sv).data
      = 'Y' :: (promptT1A.data ++ promptCount3.data ++ promptT1B.data
          ++ (joinComma ing).data ++ promptT2.data ++ (jsNumToString sv).data
          ++ promptT3.data ++ (if fl.length > 0 then (dietaryClause fl).data else [])
          ++ promptT4.data ++ (jsNumToString sv).data ++ promptT5C.data) ++ ['.'] := by
  show (jsTrim (promptChars ing fl sv)) = _
  rw [promptChars_normal]
  rw [jsTrim_sandwich]

lemma joinComma_contains_mem (x : String) (l : List String) (hx : x ∈ l) :
    List.IsInfix x.data (joinComma l).data := by
  induction l with
  | nil => simp at hx
  | cons a rest ih =>
    rcases rest with _ | ⟨b, r2⟩
    · have : x = a := by simpa using hx
      subst this
      exact ⟨[], [], by simp [joinComma]⟩
    · rw [List.mem_cons] at hx
      rcases hx with rfl | hx
      · exact ⟨[], (", " ++ joinComma (b :: r2)).data, by
          simp [joinComma, String.data_append]⟩
      · obtain ⟨s, t, hst⟩ := ih hx
        exact ⟨(a ++ ", ").data ++ s, t, by
          simp [joinComma, String.data_append, List.append_assoc, hst]⟩

/-- C9: the prompt builder (a pure function of its three arguments in this
embedding, hence deterministic) produces a prompt that contains the fixed
sentence requesting exactly 3 recipe variants, the comma-joined ingredient
list (hence every ingredient name verbatim), and — exactly when the filter
list is non-empty — the dietary-compliance clause naming every filter; with
no filters the prompt is exactly the template with no clause segment
inserted. -/
theorem promptBuilder_characterization (ing fl : List String) (sv : Rat) :
    List.IsInfix promptCount3.data (buildRecipePrompt ing fl sv).data
    ∧ List.IsInfix (joinComma ing).data (buildRecipePrompt ing fl sv).data
    ∧ (∀ x ∈ ing, List.IsInfix x.data (buildRecipePrompt ing fl sv).data)
    ∧ (fl ≠ [] →
        List.IsInfix (dietaryClause fl).data (buildRecipePrompt ing fl sv).data
        ∧ ∀ x ∈ fl, List.IsInfix x.data (buildRecipePrompt ing fl sv).data)
    ∧ (fl = [] →
        (buildRecipePrompt ing fl sv).data
          = 'Y' :: (promptT1A.data ++ promptCount3.data ++ promptT1B.data
              ++ (joinComma ing).data ++ promptT2.data ++ (jsNumToString sv).data
              ++ promptT3.data ++ promptT4.data ++ (jsNumToString sv).data
              ++ promptT5C.data) ++ ['.']) := by
  have hjoin : List.IsInfix (joinComma ing).data (buildRecipePrompt ing fl sv).data := by
    rw [buildRecipePrompt_data]
    refine ⟨'Y' :: promptT1A.data ++ promptCount3.data ++ promptT1B.data,
      (promptT2.data ++ (jsNumToString sv).data ++ promptT3.data
        ++ (if fl.length > 0 then (dietaryClause fl).data else [])
        ++ promptT4.data ++ (jsNumToString sv).data ++ promptT5C.data) ++ ['.'], ?_⟩
    simp [List.append_assoc]
  refine ⟨?_, hjoin, ?_, ?_, ?_⟩
  · rw [buildRecipePrompt_data]
    refine ⟨'Y' :: promptT1A.data,
      (promptT1B.data ++ (joinComma ing).data ++ promptT2.data ++ (jsNumToString sv).data
        ++ promptT3.data ++ (if fl.length > 0 then (dietaryClause fl).data else [])
        ++ promptT4.data ++ (jsNumToString sv).data ++ promptT5C.data) ++ ['.'], ?_⟩
    simp [List.append_assoc]
  · intro x hx
    exact (joinComma_contains_mem x ing hx).trans hjoin
  · intro hfl
    have hlen : fl.length > 0 := List.length_pos.mpr hfl
    have hclause : List.IsInfix (dietaryClause fl).data (buildRecipePrompt ing fl sv).data := by
      rw [buildRecipePrompt_data, if_pos hlen]
      refine ⟨'Y' :: promptT1A.data ++ promptCount3.data ++ promptT1B.data
          ++ (joinComma ing).data ++ promptT2.data ++ (jsNumToString sv).data ++ promptT3.data,
        (promptT4.data ++ (jsNumToString sv).data ++ promptT5C.data) ++ ['.'], ?_⟩
      simp [List.append_assoc]
    refine ⟨hclause, fun x hx => ?_⟩
    have hjf : List.IsInfix (joinComma fl).data (dietaryClause fl).data := by
      refine ⟨("- Must comply with: " : String).data, (" dietary requirements" : String).data, ?_⟩
      simp [dietaryClause, String.data_append]
    exact ((joinComma_contains_mem x fl hx).trans hjf).trans hclause
  · intro hfl
    subst hfl
    rw [buildRecipePrompt_data]
    simp

/-- C9 (witness): with a non-empty filter list the built prompt contains the
dietary clause. -/
theorem promptBuilder_characterization_witness :
    List.IsInfix (dietaryClause ["vegan"]).data
      (buildRecipePrompt ["chicken", "rice"] ["vegan"] 4).data :=
  ((promptBuilder_characterization ["chicken", "rice"] ["vegan"] 4).2.2.2.1 (by simp)).1
